import Mathlib

/-!
Shallow embedding of the marketplace indexer
(crates/indexer: models/marketplace_models, processors/marketplace_processor,
runtime) together with proofs about its specification.

JSON-like values (`serde_json::Value`) are modelled by the inductive `JValue`;
objects are association lists kept in ascending key order, mirroring the
`BTreeMap` backing `serde_json::Map`. Fallible Rust functions returning
`anyhow::Result` are modelled with `Except`; a Rust panic (a `.unwrap()` on
`None`/`Err`) is modelled by an outer `Option` returning `none`.
-/

set_option autoImplicit false

namespace MarketplaceIndexer

/-- Model of `serde_json::Value`. Numbers are modelled as integers (the
domain structs only deserialize integer fields); objects are association
lists in ascending key order with unique keys, as in the `BTreeMap`-backed
`serde_json::Map`. -/
inductive JValue where
  | null
  | bool (b : Bool)
  | num (n : Int)
  | str (s : String)
  | arr (elems : List JValue)
  | obj (entries : List (String × JValue))
deriving Repr

/-- Whether a value is a JSON object (`Value::Object`). -/
def JValue.isObj : JValue → Bool
  | .obj _ => true
  | _ => false

/-- Lookup of a key in an object's entry list (first match). -/
def getField (entries : List (String × JValue)) (k : String) : Option JValue :=
  (entries.find? (fun p => p.1 = k)).map (fun p => p.2)

/-- Replace the value bound to key `k` (first occurrence) with `v`,
keeping its position. -/
def replaceKey : List (String × JValue) → String → JValue → List (String × JValue)
  | [], _, _ => []
  | (k', v') :: rest, k, v =>
    if k = k' then (k', v) :: rest else (k', v') :: replaceKey rest k v

/-- Insert the binding `(k, v)` at its ascending-order position, as a
`BTreeMap` insertion of a fresh key does. -/
def sortedInsert : List (String × JValue) → String → JValue → List (String × JValue)
  | [], k, v => [(k, v)]
  | (k', v') :: rest, k, v =>
    if k < k' then (k, v) :: (k', v') :: rest
    else (k', v') :: sortedInsert rest k v

mutual

/-- Embedding of `merge_two_values` (utils.rs): when both sides are objects,
merge the other object into the destination key by key, recursing through
`entryMerge`; otherwise the other value replaces the destination. -/
def mergeTwoValues : JValue → JValue → JValue
  | .obj d, .obj o => .obj (mergeInto d o)
  | _, other => other
termination_by _ b => (sizeOf b, 0)

/-- The iteration `for (k, v) in other_map` of `merge_two_values`: each
entry of the other object is merged into the destination entry list. -/
def mergeInto (d : List (String × JValue)) : List (String × JValue) → List (String × JValue)
  | [] => d
  | (k, v) :: rest => mergeInto (entryMerge d k v) rest
termination_by l => (sizeOf l, 2)

/-- `destination_map.entry(k).or_insert(Value::Null)` followed by the
recursive `merge_two_values` call: if the key is present its value is merged
with `v`; otherwise `(k, merge null v)` is inserted at its sorted position,
as a `BTreeMap` insertion would. Merging anything into `null` yields that
thing, since `null` is not an object. -/
def entryMerge (d : List (String × JValue)) (k : String) (v : JValue) :
    List (String × JValue) :=
  match getField d k with
  | some old => replaceKey d k (mergeTwoValues old v)
  | none => sortedInsert d k (mergeTwoValues .null v)
termination_by (sizeOf v, 1)

end

/-- Embedding of `merge_values_vector` (utils.rs): folds the argument list
left to right with `merge_two_values`, starting from element 0. The Rust
function unwraps `values.get_mut(0)`, so the empty list panics: modelled by
`none`. -/
def merge_values_vector : List JValue → Option JValue
  | [] => none
  | v :: rest => some (rest.foldl mergeTwoValues v)

/-! ### Structural decoding (`serde_json::from_value`)

A derived `Deserialize` on a struct accepts a JSON object containing all
declared fields (unknown keys ignored) or a JSON array holding exactly the
fields in declaration order; anything else is a decode error. `i64` fields
require an integer in the `i64` range; `String` fields require a JSON
string. `chrono::NaiveDateTime` and the string-deserialized `BigDecimal`
are modelled by their string representations: the model keeps any JSON
string where chrono/bigdecimal would reject unparsable ones, so a decode
failure in the model is also a failure in the code — the only direction the
theorems below rely on for these two fields. -/

/-- Decoding an `i64` field from a JSON value. -/
def decodeI64 : JValue → Option Int
  | .num n => if -(2 ^ 63) ≤ n ∧ n < 2 ^ 63 then some n else none
  | _ => none

/-- Decoding a `String` field from a JSON value. -/
def decodeString : JValue → Option String
  | .str s => some s
  | _ => none

/-- `OfferType` (utils.rs). -/
structure OfferType where
  price : Int
  seller : String
deriving Repr, DecidableEq

/-- `OrderType` (utils.rs). -/
structure OrderType where
  price : Int
  quantity : Int
deriving Repr, DecidableEq

/-- `BidType` (utils.rs). -/
structure BidType where
  price : Int
  maker : String
deriving Repr, DecidableEq

/-- `serde_json::from_value::<OfferType>`. -/
def decodeOfferType : JValue → Option OfferType
  | .obj kvs => do
      let price ← (getField kvs "price").bind decodeI64
      let seller ← (getField kvs "seller").bind decodeString
      pure ⟨price, seller⟩
  | .arr [p, s] => do
      let price ← decodeI64 p
      let seller ← decodeString s
      pure ⟨price, seller⟩
  | _ => none

/-- `serde_json::from_value::<OrderType>`. -/
def decodeOrderType : JValue → Option OrderType
  | .obj kvs => do
      let price ← (getField kvs "price").bind decodeI64
      let quantity ← (getField kvs "quantity").bind decodeI64
      pure ⟨price, quantity⟩
  | .arr [p, q] => do
      let price ← decodeI64 p
      let quantity ← decodeI64 q
      pure ⟨price, quantity⟩
  | _ => none

/-- `serde_json::from_value::<BidType>`. -/
def decodeBidType : JValue → Option BidType
  | .obj kvs => do
      let price ← (getField kvs "price").bind decodeI64
      let maker ← (getField kvs "maker").bind decodeString
      pure ⟨price, maker⟩
  | .arr [p, m] => do
      let price ← decodeI64 p
      let maker ← decodeString m
      pure ⟨price, maker⟩
  | _ => none

/-- `MarketplaceWriteSet` (utils.rs). -/
inductive MarketplaceWriteSet where
  | Offer (inner : OfferType)
  | Order (inner : OrderType)
  | Bid (inner : BidType)
deriving Repr, DecidableEq

/-- The `anyhow` context attached on failure: the format string
`"Version {} failed! ..."` always embeds the transaction version and the
offending tag or function name, modelled as the two fields below. -/
structure DecodeContext where
  version : Int
  info : String
deriving Repr, DecidableEq

/-- The `Offer` match arm's type tag in `from_table_item_type`. -/
def offerTypeTag : String :=
  "0x4bed2725cbd33afc34c556a86910456e28537ffb84df6537401c966dbaccf63b::collection::Offer"

/-- The `Order` match arm's type tag in `from_table_item_type`. -/
def orderTypeTag : String :=
  "0x4bed2725cbd33afc34c556a86910456e28537ffb84df6537401c966dbaccf63b::collection::Order"

/-- The `Bid` match arm's type tag exactly as written in the source:
note the single colon in `collection:Bid`. -/
def bidTypeTag : String :=
  "0x4bed2725cbd33afc34c556a86910456e28537ffb84df6537401c966dbaccf63b::collection:Bid"

/-- Embedding of `MarketplaceWriteSet::from_table_item_type` (utils.rs):
string match over the three registered tags; a matching tag decodes the
value into the corresponding variant, any other tag yields `Ok(None)`;
`context` attaches the version on the error path only. -/
def MarketplaceWriteSet.from_table_item_type (data_type : String) (data : JValue)
    (txn_version : Int) : Except DecodeContext (Option MarketplaceWriteSet) :=
  let ctx : DecodeContext := ⟨txn_version, data_type⟩
  if data_type = offerTypeTag then
    match decodeOfferType data with
    | some inner => .ok (some (.Offer inner))
    | none => .error ctx
  else if data_type = orderTypeTag then
    match decodeOrderType data with
    | some inner => .ok (some (.Order inner))
    | none => .error ctx
  else if data_type = bidTypeTag then
    match decodeBidType data with
    | some inner => .ok (some (.Bid inner))
    | none => .error ctx
  else .ok none

/-- `CollectionRegistrationEvent` (utils.rs). The `chrono::NaiveDateTime`
timestamp and the string-deserialized `BigDecimal` counter are modelled by
their string representations. -/
structure CollectionRegistrationEvent where
  creator : String
  collection_address : String
  collection_name : String
  timestamp : String
  event_counter : String
deriving Repr, DecidableEq

/-- `serde_json::from_value::<CollectionRegistrationEvent>`. -/
def decodeCollectionRegistrationEvent : JValue → Option CollectionRegistrationEvent
  | .obj kvs => do
      let creator ← (getField kvs "creator").bind decodeString
      let collection_address ← (getField kvs "collection_address").bind decodeString
      let collection_name ← (getField kvs "collection_name").bind decodeString
      let timestamp ← (getField kvs "timestamp").bind decodeString
      let event_counter ← (getField kvs "event_counter").bind decodeString
      pure ⟨creator, collection_address, collection_name, timestamp, event_counter⟩
  | .arr [c, ca, cn, ts, ec] => do
      let creator ← decodeString c
      let collection_address ← decodeString ca
      let collection_name ← decodeString cn
      let timestamp ← decodeString ts
      let event_counter ← decodeString ec
      pure ⟨creator, collection_address, collection_name, timestamp, event_counter⟩
  | _ => none

/-- `MarketplaceEvent` (utils.rs). -/
inductive MarketplaceEvent where
  | CollectionRegistrationEvent (inner : CollectionRegistrationEvent)
deriving Repr, DecidableEq

/-- The single registered event tag in `MarketplaceEvent::from_event`. -/
def collectionRegistrationEventTag : String :=
  "0x4bed2725cbd33afc34c556a86910456e28537ffb84df6537401c966dbaccf63b::events::CollectionRegistrationEvent"

/-- Embedding of `MarketplaceEvent::from_event` (utils.rs). -/
def MarketplaceEvent.from_event (data_type : String) (data : JValue)
    (txn_version : Int) : Except DecodeContext (Option MarketplaceEvent) :=
  let ctx : DecodeContext := ⟨txn_version, data_type⟩
  if data_type = collectionRegistrationEventTag then
    match decodeCollectionRegistrationEvent data with
    | some inner => .ok (some (.CollectionRegistrationEvent inner))
    | none => .error ctx
  else .ok none

/-- `ListItemPayload` (utils.rs). -/
structure ListItemPayload where
  creator : String
  collection_name : String
  token_name : String
  property_version : Int
  price : Int
deriving Repr, DecidableEq

/-- `PlaceOrderPayload` (utils.rs). -/
structure PlaceOrderPayload where
  creator : String
  collection_name : String
  price : Int
  quantity : Int
deriving Repr, DecidableEq

/-- `PlaceBidPayload` (utils.rs). -/
structure PlaceBidPayload where
  creator : String
  collection_name : String
  token_name : String
  property_version : Int
  price : Int
deriving Repr, DecidableEq

/-- `MarketplacePayload` (utils.rs). -/
inductive MarketplacePayload where
  | ListItemPayload (inner : ListItemPayload)
  | PlaceOrderPayload (inner : PlaceOrderPayload)
  | PlaceBidPayload (inner : PlaceBidPayload)
deriving Repr, DecidableEq

/-- `serde_json::from_value::<ListItemPayload>`. -/
def decodeListItemPayload : JValue → Option ListItemPayload
  | .obj kvs => do
      let creator ← (getField kvs "creator").bind decodeString
      let collection_name ← (getField kvs "collection_name").bind decodeString
      let token_name ← (getField kvs "token_name").bind decodeString
      let property_version ← (getField kvs "property_version").bind decodeI64
      let price ← (getField kvs "price").bind decodeI64
      pure ⟨creator, collection_name, token_name, property_version, price⟩
  | .arr [c, cn, tn, pv, p] => do
      let creator ← decodeString c
      let collection_name ← decodeString cn
      let token_name ← decodeString tn
      let property_version ← decodeI64 pv
      let price ← decodeI64 p
      pure ⟨creator, collection_name, token_name, property_version, price⟩
  | _ => none

/-- `serde_json::from_value::<PlaceOrderPayload>`. -/
def decodePlaceOrderPayload : JValue → Option PlaceOrderPayload
  | .obj kvs => do
      let creator ← (getField kvs "creator").bind decodeString
      let collection_name ← (getField kvs "collection_name").bind decodeString
      let price ← (getField kvs "price").bind decodeI64
      let quantity ← (getField kvs "quantity").bind decodeI64
      pure ⟨creator, collection_name, price, quantity⟩
  | .arr [c, cn, p, q] => do
      let creator ← decodeString c
      let collection_name ← decodeString cn
      let price ← decodeI64 p
      let quantity ← decodeI64 q
      pure ⟨creator, collection_name, price, quantity⟩
  | _ => none

/-- `serde_json::from_value::<PlaceBidPayload>`. -/
def decodePlaceBidPayload : JValue → Option PlaceBidPayload
  | .obj kvs => do
      let creator ← (getField kvs "creator").bind decodeString
      let collection_name ← (getField kvs "collection_name").bind decodeString
      let token_name ← (getField kvs "token_name").bind decodeString
      let property_version ← (getField kvs "property_version").bind decodeI64
      let price ← (getField kvs "price").bind decodeI64
      pure ⟨creator, collection_name, token_name, property_version, price⟩
  | .arr [c, cn, tn, pv, p] => do
      let creator ← decodeString c
      let collection_name ← decodeString cn
      let token_name ← decodeString tn
      let property_version ← decodeI64 pv
      let price ← decodeI64 p
      pure ⟨creator, collection_name, token_name, property_version, price⟩
  | _ => none

/-- The `list_item` match arm's function name in `from_function_name`. -/
def listItemFunctionName : String :=
  "0x4bed2725cbd33afc34c556a86910456e28537ffb84df6537401c966dbaccf63b::core::list_item"

/-- The `place_blind_order` match arm's function name. -/
def placeBlindOrderFunctionName : String :=
  "0x4bed2725cbd33afc34c556a86910456e28537ffb84df6537401c966dbaccf63b::core::place_blind_order"

/-- The `place_bidding` match arm's function name. -/
def placeBiddingFunctionName : String :=
  "0x4bed2725cbd33afc34c556a86910456e28537ffb84df6537401c966dbaccf63b::core::place_bidding"

/-- Embedding of `MarketplacePayload::from_function_name` (utils.rs): the
three registered function names merge the argument vector with
`merge_values_vector` (which panics on an empty vector: outer `none`) and
decode the merged value; any other name yields `Ok(None)`. -/
def MarketplacePayload.from_function_name (function_name : String) (data : List JValue)
    (txn_version : Int) : Option (Except DecodeContext (Option MarketplacePayload)) :=
  let ctx : DecodeContext := ⟨txn_version, function_name⟩
  if function_name = listItemFunctionName then
    (merge_values_vector data).map (fun merged =>
      match decodeListItemPayload merged with
      | some inner => .ok (some (.ListItemPayload inner))
      | none => .error ctx)
  else if function_name = placeBlindOrderFunctionName then
    (merge_values_vector data).map (fun merged =>
      match decodePlaceOrderPayload merged with
      | some inner => .ok (some (.PlaceOrderPayload inner))
      | none => .error ctx)
  else if function_name = placeBiddingFunctionName then
    (merge_values_vector data).map (fun merged =>
      match decodePlaceBidPayload merged with
      | some inner => .ok (some (.PlaceBidPayload inner))
      | none => .error ctx)
  else some (.ok none)

/-! ### offers.rs: the joined `MarketplaceOffer` record -/

/-- The decoded table data of a table-item write (`aptos_api_types`):
key type tag, key, value type tag and value. -/
structure TableItemData where
  key_type : String
  key : JValue
  value_type : String
  value : JValue

/-- A `WriteTableItem` write-set change; only the decoded `data` field is
consumed by the marketplace decoders. It is optional in the API type and
unwrapped by them (a panic, modelled by `none` results, when absent). -/
structure WriteTableItem where
  data : Option TableItemData

/-- An entry-function payload: the fully-qualified function name (the
`to_string` of its `EntryFunctionId`) and the ordered argument values. -/
structure EntryFunctionPayload where
  function : String
  arguments : List JValue

/-- The `MarketplaceOffer` row (offers.rs); the transaction timestamp is
modelled as an integer. -/
structure MarketplaceOffer where
  creator_address : String
  collection_name : String
  token_name : String
  property_version : Int
  price : Int
  seller : String
  timestamp : Int
deriving Repr, DecidableEq

/-- Embedding of `MarketplaceOffer::from_table_item` (offers.rs): unwraps
the table item's decoded data (panic when absent: outer `none`), dispatches
the key type tag (a decode error propagates via `?`), dispatches the
payload's function name (`.unwrap()`: a decode error or the empty-argument
panic is an outer `none`), and joins the two halves only when the tag half
is an `Offer` and the payload half a `ListItemPayload`. -/
def MarketplaceOffer.from_table_item (table_item : WriteTableItem)
    (payload : EntryFunctionPayload) (txn_version : Int) (txn_timestamp : Int) :
    Option (Except DecodeContext (Option MarketplaceOffer)) :=
  match table_item.data with
  | none => none
  | some table_item_data =>
    match MarketplaceWriteSet.from_table_item_type table_item_data.key_type
        table_item_data.value txn_version with
    | .error e => some (.error e)
    | .ok ws =>
      let maybe_offer : Option OfferType :=
        match ws with
        | some (.Offer inner) => some inner
        | _ => none
      match MarketplacePayload.from_function_name payload.function payload.arguments
          txn_version with
      | none => none
      | some (.error _) => none
      | some (.ok mp) =>
        let maybe_list_item_payload : Option ListItemPayload :=
          match mp with
          | some (.ListItemPayload inner) => some inner
          | _ => none
        match maybe_offer, maybe_list_item_payload with
        | some offer, some lip =>
          some (.ok (some ⟨lip.creator, lip.collection_name, lip.token_name,
            lip.property_version, offer.price, offer.seller, txn_timestamp⟩))
        | _, _ => some (.ok none)

/-! ### marketplace_processor.rs: the batch writer -/

/-- The `MarketplaceOrder` row (orders.rs). -/
structure MarketplaceOrder where
  creator_address : String
  collection_name : String
  price : Int
  quantity : Int
  maker : String
  timestamp : Int
deriving Repr, DecidableEq

/-- The `MarketplaceBid` row (bids.rs). -/
structure MarketplaceBid where
  creator_address : String
  collection_name : String
  token_name : String
  property_version : Int
  price : Int
  maker : String
  timestamp : Int
deriving Repr, DecidableEq

/-- The `MarketplaceCollection` row (collections.rs). -/
structure MarketplaceCollection where
  creator_address : String
  collection_address : String
  collection_name : String
  creation_timestamp : Int
deriving Repr, DecidableEq

/-- `MarketplaceOffer::field_count()`: the derived `FieldCount` of the
seven-field `MarketplaceOffer` struct, the column count of its insert. -/
def MarketplaceOffer.field_count : Nat := 7

/-- `MarketplaceOrder::field_count()`: the derived `FieldCount` of the
six-field `MarketplaceOrder` struct. -/
def MarketplaceOrder.field_count : Nat := 6

/-- `MarketplaceBid::field_count()`: the derived `FieldCount` of the
seven-field `MarketplaceBid` struct. -/
def MarketplaceBid.field_count : Nat := 7

/-- `MarketplaceCollection::field_count()`: the derived `FieldCount` of the
four-field `MarketplaceCollection` struct. -/
def MarketplaceCollection.field_count : Nat := 4

/-- Modelled from the spec: `get_chunks` (crates/indexer/src/database.rs is
not among the sources) computes `chunk_size = floor(max_params /
column_count)` and slices the `numItems` records into contiguous chunks of
that size; the store's parameter-count ceiling is the `maxParams`
argument. -/
def get_chunks (maxParams numItems columnCount : Nat) : List (Nat × Nat) :=
  let chunkSize := maxParams / columnCount
  if chunkSize = 0 then []
  else (List.range ((numItems + chunkSize - 1) / chunkSize)).map
    (fun i => (i * chunkSize, min ((i + 1) * chunkSize) numItems))

/-- The chunk plan of `insert_offers` (marketplace_processor.rs): it passes
`MarketplaceOffer::field_count()` to `get_chunks`. -/
def insert_offers_chunks (maxParams numOffers : Nat) : List (Nat × Nat) :=
  get_chunks maxParams numOffers MarketplaceOffer.field_count

/-- The chunk plan of `insert_orders` (marketplace_processor.rs): the
source passes `MarketplaceOffer::field_count()` — not
`MarketplaceOrder::field_count()` — to `get_chunks`. -/
def insert_orders_chunks (maxParams numOrders : Nat) : List (Nat × Nat) :=
  get_chunks maxParams numOrders MarketplaceOffer.field_count

/-- The chunk plan of `insert_bids` (marketplace_processor.rs): the source
passes `MarketplaceOffer::field_count()` here as well. -/
def insert_bids_chunks (maxParams numBids : Nat) : List (Nat × Nat) :=
  get_chunks maxParams numBids MarketplaceOffer.field_count

/-- Modelled from the spec: the sanitization pass of `clean_data_for_db`
truncates over-length string fields; the length cap of the store's text
columns is represented by this constant. -/
def maxStringLength : Nat := 65535

/-- Truncation of one string field by the sanitization pass. -/
def sanitizeString (s : String) : String := s.take maxStringLength

/-- Modelled from the spec: `clean_data_for_db` (database.rs, not among the
sources) passes every record of a slice through the sanitization pass,
here given by the per-record cleaner of the record kind. -/
def clean_data_for_db {α : Type} (cleanRec : α → α) (items : List α) : List α :=
  items.map cleanRec

/-- Sanitization of one `MarketplaceCollection` row. -/
def cleanCollection (c : MarketplaceCollection) : MarketplaceCollection :=
  { c with
    creator_address := sanitizeString c.creator_address
    collection_address := sanitizeString c.collection_address
    collection_name := sanitizeString c.collection_name }

/-- Sanitization of one `MarketplaceOffer` row. -/
def cleanOffer (o : MarketplaceOffer) : MarketplaceOffer :=
  { o with
    creator_address := sanitizeString o.creator_address
    collection_name := sanitizeString o.collection_name
    token_name := sanitizeString o.token_name
    seller := sanitizeString o.seller }

/-- Sanitization of one `MarketplaceOrder` row. -/
def cleanOrder (o : MarketplaceOrder) : MarketplaceOrder :=
  { o with
    creator_address := sanitizeString o.creator_address
    collection_name := sanitizeString o.collection_name
    maker := sanitizeString o.maker }

/-- Sanitization of one `MarketplaceBid` row. -/
def cleanBid (b : MarketplaceBid) : MarketplaceBid :=
  { b with
    creator_address := sanitizeString b.creator_address
    collection_name := sanitizeString b.collection_name
    token_name := sanitizeString b.token_name
    maker := sanitizeString b.maker }

/-- A database error, abstract. -/
abbrev DbError := String

/-- The four record slices handed to one `insert_to_db` call. -/
structure MarketplaceRecords where
  collections : List MarketplaceCollection
  offers : List MarketplaceOffer
  orders : List MarketplaceOrder
  bids : List MarketplaceBid
deriving DecidableEq

/-- The sanitized retry payload: every record of every kind passed through
`clean_data_for_db`. -/
def cleanRecords (recs : MarketplaceRecords) : MarketplaceRecords where
  collections := clean_data_for_db cleanCollection recs.collections
  offers := clean_data_for_db cleanOffer recs.offers
  orders := clean_data_for_db cleanOrder recs.orders
  bids := clean_data_for_db cleanBid recs.bids

/-- Embedding of `insert_to_db` (marketplace_processor.rs). A read-write
transaction over the four kind-wise inserts is abstracted as `runTxn`, the
connection's transactional execution of one payload of records. The first
transaction carries the records as given; if and only if it fails, one
fresh transaction carries the sanitized records, and its outcome is the
call's outcome. -/
def insert_to_db (runTxn : MarketplaceRecords → Except DbError Unit)
    (recs : MarketplaceRecords) : Except DbError Unit :=
  match runTxn recs with
  | .ok _ => .ok ()
  | .error _ => runTxn (cleanRecords recs)

/-! ### runtime.rs: MovingAverage, the reporting loop, start-version
resolution -/

/-- `MovingAverage` (runtime.rs): a window length in milliseconds, the
deque of `(timestamp_millis, value)` samples (front first) and their
running sum. -/
structure MovingAverage where
  window_millis : Nat
  values : List (Nat × Nat)
  sum : Nat
deriving Repr, DecidableEq

/-- `MovingAverage::new`. -/
def MovingAverage.new (window_millis : Nat) : MovingAverage :=
  ⟨window_millis, [], 0⟩

/-- The eviction loop of `MovingAverage::tick`: while the front sample
`(ts, val)` satisfies `timestamp_millis - ts > window`, pop it and subtract
its value from the sum. Timestamp subtraction is on unsigned machine
integers; the embedding uses truncated `Nat` subtraction, which agrees
whenever timestamps are fed in non-decreasing order. -/
def evictFront (timestamp_millis window : Nat) :
    List (Nat × Nat) → Nat → List (Nat × Nat) × Nat
  | [], sum => ([], sum)
  | (ts, val) :: rest, sum =>
    if timestamp_millis - ts > window then
      evictFront timestamp_millis window rest (sum - val)
    else ((ts, val) :: rest, sum)

/-- `MovingAverage::tick` (runtime.rs): push the sample at the back, add
its value to the sum, then run the front-eviction loop. -/
def MovingAverage.tick (m : MovingAverage) (timestamp_millis value : Nat) :
    MovingAverage :=
  let pushed := m.values ++ [(timestamp_millis, value)]
  let evicted := evictFront timestamp_millis m.window_millis pushed (m.sum + value)
  ⟨m.window_millis, evicted.1, evicted.2⟩

/-- `MovingAverage::avg` (runtime.rs): `0` with fewer than two samples,
else the sum over the elapsed time from the oldest to the newest remaining
timestamp. The `f64` division is modelled as rational division. -/
def MovingAverage.avg (m : MovingAverage) : ℚ :=
  if m.values.length < 2 then 0
  else
    let back := ((m.values.getLast?).map Prod.fst).getD 0
    let front := ((m.values.head?).map Prod.fst).getD 0
    (m.sum : ℚ) / ((back - front : Nat) : ℚ)

/-- `ProcessingResult` (indexer/processing_result.rs), as consumed by the
reporting loop. -/
structure ProcessingResult where
  name : String
  start_version : Nat
  end_version : Nat
deriving Repr, DecidableEq

/-- A `TransactionProcessingError` as the reporting loop consumes it
through `.inner()`: the underlying error and the batch's version range and
processor name. -/
structure TxnProcessingError where
  err : String
  start_version : Nat
  end_version : Nat
  name : String
deriving Repr, DecidableEq

/-- The mutable state of the reporting loop in `run_forever` (runtime.rs):
the cumulative `versions_processed`, the last emission bucket `base` and
the rate window. -/
structure LoopState where
  versions_processed : Nat
  base : Nat
  ma : MovingAverage
deriving Repr, DecidableEq

/-- What the `error!` call logs before the `panic!` on a failed batch. -/
structure ErrorLog where
  processor_name : String
  start_version : Nat
  end_version : Nat
  error : String
deriving Repr, DecidableEq

/-- One `info!` progress line of the reporting loop. -/
structure BatchLog where
  processor_name : String
  batch_start_version : Nat
  batch_end_version : Nat
  versions_processed : Nat
  tps : ℚ
deriving Repr, DecidableEq

/-- The outcome of one iteration of the reporting loop: either the process
dies by `panic!` after logging the error, or the loop continues with an
updated state, possibly emitting a progress line. -/
inductive LoopOutcome where
  | fatal (log : ErrorLog)
  | continued (st : LoopState) (emitted : Option BatchLog)
deriving Repr, DecidableEq

/-- Embedding of one iteration of the reporting loop of `run_forever`
(runtime.rs, the `loop` draining the results channel). `now` is the wall
clock read by `tick_now`. An error result is logged with the processor
name and the batch's version range and the process panics; an ok result
ticks the rate window, accumulates `versions_processed` and emits a
progress line whenever the `emit_every` bucket advances. -/
def reporting_step (processor_name : String) (emit_every : Nat) (now : Nat)
    (st : LoopState) (num_res : Nat)
    (result : Except TxnProcessingError ProcessingResult) : LoopOutcome :=
  match result with
  | .error tpe => .fatal ⟨processor_name, tpe.start_version, tpe.end_version, tpe.err⟩
  | .ok processing_result =>
    let ma := st.ma.tick now num_res
    let versions_processed := st.versions_processed + num_res
    if emit_every ≠ 0 then
      let new_base := versions_processed / emit_every
      if st.base ≠ new_base then
        .continued ⟨versions_processed, new_base, ma⟩
          (some ⟨processor_name, processing_result.start_version,
            processing_result.end_version, versions_processed, ma.avg * 1000⟩)
      else .continued ⟨versions_processed, st.base, ma⟩ none
    else .continued ⟨versions_processed, st.base, ma⟩ none

/-- Modelled from the spec: `Tailer::get_start_version` (indexer/tailer.rs
is not among the sources) reads the processor's persisted progress cursor
and subtracts the configured lookback, `none` when no cursor row exists. -/
def get_start_version (cursor : Option Int) (lookback_versions : Int) : Option Int :=
  cursor.map (fun c => c - lookback_versions)

/-- The `as u64` cast of an `i64` value, two's complement. -/
def i64AsU64 (n : Int) : Nat := (n % (2 ^ 64)).toNat

/-- Embedding of the start-version resolution in `run_forever`
(runtime.rs): a configured `starting_version` override wins outright;
otherwise `get_start_version`, with `0` when it yields nothing, cast
`as u64`. -/
def resolve_start_version (starting_version : Option Nat) (cursor : Option Int)
    (lookback_versions : Int) : Nat :=
  match starting_version with
  | some version => version
  | none => i64AsU64 ((get_start_version cursor lookback_versions).getD 0)

/-- The sum of the sample values of a deque, the quantity `MovingAverage`
tracks in its `sum` field. -/
def sumValues (l : List (Nat × Nat)) : Nat :=
  (l.map Prod.snd).sum

/-! ## Supporting lemmas -/

@[simp] theorem getField_nil (k : String) : getField [] k = none := rfl

@[simp] theorem getField_cons (k0 : String) (v0 : JValue)
    (rest : List (String × JValue)) (k : String) :
    getField ((k0, v0) :: rest) k = if k0 = k then some v0 else getField rest k := by
  by_cases h : k0 = k <;> simp [getField, List.find?, h]

theorem getField_eq_none_iff (l : List (String × JValue)) (k : String) :
    getField l k = none ↔ ∀ p ∈ l, p.1 ≠ k := by
  simp [getField, List.find?_eq_none]

theorem getField_replaceKey (d : List (String × JValue)) (k : String) (w : JValue)
    (k' : String) (hk : (getField d k).isSome) :
    getField (replaceKey d k w) k' =
      if k' = k then some w else getField d k' := by
  induction d with
  | nil => simp at hk
  | cons p rest ih =>
    obtain ⟨k0, v0⟩ := p
    by_cases h : k = k0
    · subst h
      by_cases h' : k' = k
      · subst h'; simp [replaceKey]
      · simp [replaceKey, h', Ne.symm h']
    · have hk' : (getField rest k).isSome := by
        simpa [Ne.symm h] using hk

      by_cases h' : k' = k0
      · subst h'
        simp [replaceKey, h, Ne.symm h]
      · simp [replaceKey, h, h', Ne.symm h', ih hk']

theorem getField_sortedInsert (d : List (String × JValue)) (k : String) (w : JValue)
    (k' : String) (hk : getField d k = none) :
    getField (sortedInsert d k w) k' =
      if k' = k then some w else getField d k' := by
  induction d with
  | nil =>
    by_cases h' : k' = k
    · subst h'; simp [sortedInsert]
    · simp [sortedInsert, h', Ne.symm h']
  | cons p rest ih =>
    obtain ⟨k0, v0⟩ := p
    have hne : k0 ≠ k := by
      have := (getField_eq_none_iff _ _).1 hk ⟨k0, v0⟩ (by simp)
      simpa using this
    have hrest : getField rest k = none := by
      rw [getField_eq_none_iff] at hk ⊢
      intro p hp
      exact hk p (List.mem_cons_of_mem _ hp)
    by_cases hlt : k < k0
    · by_cases h' : k' = k
      · subst h'; simp [sortedInsert, hlt]
      · simp [sortedInsert, hlt, h', Ne.symm h']
    · by_cases h' : k' = k0
      · subst h'
        simp [sortedInsert, hlt, hne]
      · simp [sortedInsert, hlt, h', Ne.symm h', ih hrest]

theorem getField_entryMerge (d : List (String × JValue)) (k : String) (v : JValue)
    (k' : String) :
    getField (entryMerge d k v) k' =
      if k' = k then some (mergeTwoValues ((getField d k).getD .null) v)
      else getField d k' := by
  rw [entryMerge]
  cases hdk : getField d k with
  | some old =>
    rw [getField_replaceKey d k _ k' (by simp [hdk])]
    simp [hdk]
  | none =>
    rw [getField_sortedInsert d k _ k' hdk]
    simp [hdk]

theorem getField_mergeInto (o : List (String × JValue)) (d : List (String × JValue))
    (k : String) (hnd : (o.map Prod.fst).Nodup) :
    getField (mergeInto d o) k =
      match getField o k with
      | none => getField d k
      | some v => some (mergeTwoValues ((getField d k).getD .null) v) := by
  induction o generalizing d with
  | nil => simp [mergeInto, getField, List.find?]
  | cons p rest ih =>
    obtain ⟨k0, v0⟩ := p
    simp only [List.map_cons, List.nodup_cons] at hnd
    obtain ⟨hk0, hndrest⟩ := hnd
    rw [mergeInto, ih _ hndrest]
    by_cases h : k = k0
    · subst h
      have hrest : getField rest k = none := by
        rw [getField_eq_none_iff]
        intro p hp hpk
        exact hk0 (hpk ▸ List.mem_map_of_mem Prod.fst hp)
      rw [hrest]
      rw [getField_entryMerge]
      simp [getField, List.find?]
    · rw [getField_entryMerge]
      simp [getField, List.find?, h, Ne.symm h]

theorem evictFront_values (t w : Nat) (l : List (Nat × Nat)) (s : Nat) :
    (evictFront t w l s).1 = l.dropWhile (fun p => decide (t - p.1 > w)) := by
  induction l generalizing s with
  | nil => rfl
  | cons p rest ih =>
    obtain ⟨ts, val⟩ := p
    by_cases h : t - ts > w <;> simp [evictFront, List.dropWhile, h, ih]

theorem evictFront_sum (t w : Nat) (l : List (Nat × Nat)) (s : Nat)
    (hs : s = sumValues l) :
    (evictFront t w l s).2 = sumValues (evictFront t w l s).1 := by
  induction l generalizing s with
  | nil => simpa [evictFront, sumValues] using hs
  | cons p rest ih =>
    obtain ⟨ts, val⟩ := p
    by_cases h : t - ts > w
    · simp only [evictFront, if_pos h]
      refine ih _ ?_
      simp [sumValues] at hs ⊢
      omega
    · simpa [evictFront, if_neg h] using hs

theorem mergeTwoValues_obj_obj (d o : List (String × JValue)) :
    mergeTwoValues (.obj d) (.obj o) = .obj (mergeInto d o) := by
  rw [mergeTwoValues]

theorem from_table_item_join (d : TableItemData) (payload : EntryFunctionPayload)
    (ver ts : Int) (w : Option MarketplaceWriteSet) (q : Option MarketplacePayload) :
    MarketplaceWriteSet.from_table_item_type d.key_type d.value ver = .ok w →
    MarketplacePayload.from_function_name payload.function payload.arguments ver
      = some (.ok q) →
    MarketplaceOffer.from_table_item ⟨some d⟩ payload ver ts
      = some (.ok (match w, q with
        | some (.Offer offer), some (.ListItemPayload lip) =>
          some ⟨lip.creator, lip.collection_name, lip.token_name,
            lip.property_version, offer.price, offer.seller, ts⟩
        | _, _ => none)) := by
  intro hw hp
  simp only [MarketplaceOffer.from_table_item, hw, hp]
  rcases w with _ | w0
  · rcases q with _ | q0
    · rfl
    · cases q0 <;> rfl
  · rcases q with _ | q0
    · cases w0 <;> rfl
    · cases w0 <;> cases q0 <;> rfl

theorem mergeTwoValues_replaces (d v : JValue)
    (h : d.isObj = false ∨ v.isObj = false) :
    mergeTwoValues d v = v := by
  cases d <;> cases v <;> simp_all [JValue.isObj, mergeTwoValues]

/-! ## Claims -/

/-- C1: for every non-empty argument list, `merge_values_vector` folds the
list left to right with `merge_two_values` into the first element; when
both sides are objects the merge is key by key (recursing via
`merge_two_values`, so a colliding later value overwrites the earlier one,
and nested objects are merged recursively), and when either side is not an
object the later value replaces the accumulator; in particular the three
listed example merges hold. -/
theorem merge_values_vector_spec :
    (∀ (v : JValue) (rest : List JValue),
      merge_values_vector (v :: rest) = some (rest.foldl mergeTwoValues v)) ∧
    (∀ d o : List (String × JValue),
      mergeTwoValues (.obj d) (.obj o) = .obj (mergeInto d o)) ∧
    (∀ (d o : List (String × JValue)) (k : String),
      (o.map Prod.fst).Nodup →
      getField (mergeInto d o) k =
        match getField o k with
        | none => getField d k
        | some v => some (mergeTwoValues ((getField d k).getD .null) v)) ∧
    (∀ d v : JValue, d.isObj = false ∨ v.isObj = false → mergeTwoValues d v = v) ∧
    merge_values_vector [.obj [("a", .num 1)], .obj [("b", .num 2)], .obj [("a", .num 3)]]
      = some (.obj [("a", .num 3), ("b", .num 2)]) ∧
    merge_values_vector
        [.obj [("a", .obj [("x", .num 1)])], .obj [("a", .obj [("y", .num 2)])]]
      = some (.obj [("a", .obj [("x", .num 1), ("y", .num 2)])]) ∧
    merge_values_vector [.obj [("a", .num 1)], .arr [.num 9]] = some (.arr [.num 9]) := by
  refine ⟨fun v rest => rfl, mergeTwoValues_obj_obj,
    fun d o k hnd => getField_mergeInto o d k hnd, mergeTwoValues_replaces, ?_, ?_, ?_⟩
  · simp [merge_values_vector, mergeTwoValues, mergeInto, entryMerge, getField,
      replaceKey, sortedInsert, List.find?]
  · simp only [merge_values_vector, List.foldl]
    simp [mergeTwoValues, mergeInto, entryMerge, getField, replaceKey,
      sortedInsert, List.find?]
    decide
  · simp [merge_values_vector, mergeTwoValues, mergeInto, entryMerge, getField,
      replaceKey, sortedInsert, List.find?]

/-- Witness for C1 at concrete inputs: the key-by-key merge lemma applied
to `{a:1}` merged with `{a:3}` at key `a`. -/
theorem merge_values_vector_spec_witness :
    getField (mergeInto [("a", JValue.num 1)] [("a", JValue.num 3)]) "a"
      = some (JValue.num 3) := by
  have h := merge_values_vector_spec.2.2.1 [("a", JValue.num 1)]
    [("a", JValue.num 3)] "a" (by simp)
  simpa [mergeTwoValues] using h

/-- C2: tag dispatch is total: any tag string outside the registered match
arms yields `Ok(None)` for every data value, never an error; a registered
tag whose value fails structural decode yields an error whose attached
context carries the given transaction version. -/
theorem tag_dispatch_total :
    (∀ (tag : String) (data : JValue) (ver : Int),
      tag ≠ offerTypeTag → tag ≠ orderTypeTag → tag ≠ bidTypeTag →
      MarketplaceWriteSet.from_table_item_type tag data ver = .ok none) ∧
    (∀ (tag : String) (data : JValue) (ver : Int),
      tag ≠ collectionRegistrationEventTag →
      MarketplaceEvent.from_event tag data ver = .ok none) ∧
    (∀ (data : JValue) (ver : Int), decodeOfferType data = none →
      MarketplaceWriteSet.from_table_item_type offerTypeTag data ver
        = .error ⟨ver, offerTypeTag⟩) ∧
    (∀ (data : JValue) (ver : Int), decodeOrderType data = none →
      MarketplaceWriteSet.from_table_item_type orderTypeTag data ver
        = .error ⟨ver, orderTypeTag⟩) ∧
    (∀ (data : JValue) (ver : Int), decodeBidType data = none →
      MarketplaceWriteSet.from_table_item_type bidTypeTag data ver
        = .error ⟨ver, bidTypeTag⟩) ∧
    (∀ (data : JValue) (ver : Int), decodeCollectionRegistrationEvent data = none →
      MarketplaceEvent.from_event collectionRegistrationEventTag data ver
        = .error ⟨ver, collectionRegistrationEventTag⟩) := by
  refine ⟨?_, ?_, ?_, ?_, ?_, ?_⟩
  · intro tag data ver h1 h2 h3
    simp [MarketplaceWriteSet.from_table_item_type, h1, h2, h3]
  · intro tag data ver h1
    simp [MarketplaceEvent.from_event, h1]
  · intro data ver h
    simp [MarketplaceWriteSet.from_table_item_type, h]
  · intro data ver h
    simp [MarketplaceWriteSet.from_table_item_type, h,
      show orderTypeTag ≠ offerTypeTag by decide]
  · intro data ver h
    simp [MarketplaceWriteSet.from_table_item_type, h,
      show bidTypeTag ≠ offerTypeTag by decide,
      show bidTypeTag ≠ orderTypeTag by decide]
  · intro data ver h
    simp [MarketplaceEvent.from_event, h]

/-- Witness for C2 at concrete inputs: an unregistered tag is a miss, and
the registered Offer tag on a non-decodable value is an error carrying the
version. -/
theorem tag_dispatch_total_witness :
    MarketplaceWriteSet.from_table_item_type "some::other::Tag" (.num 3) 42 = .ok none ∧
    MarketplaceWriteSet.from_table_item_type offerTypeTag (.num 3) 42
      = .error ⟨42, offerTypeTag⟩ := by
  constructor
  · exact tag_dispatch_total.1 "some::other::Tag" (.num 3) 42
      (by decide) (by decide) (by decide)
  · exact tag_dispatch_total.2.2.1 (.num 3) 42 (by decide)

/-- C6 (failing input): `insert_orders` passes
`MarketplaceOffer::field_count()` (7) to `get_chunks`, not the orders
table's own column count `MarketplaceOrder::field_count()` (6): under a cap
of 13 parameters, 2 order records are split into 2 chunk statements where
the claimed `ceil(N / floor(M/C))` with the kind's own `C = 6` gives 1. -/
theorem insert_orders_chunks_uses_offer_field_count :
    insert_orders_chunks 13 2 = [(0, 1), (1, 2)] ∧
    get_chunks 13 2 MarketplaceOrder.field_count = [(0, 2)] ∧
    (insert_orders_chunks 13 2).length = 2 ∧
    (2 + 13 / MarketplaceOrder.field_count - 1) / (13 / MarketplaceOrder.field_count)
      = 1 := by
  refine ⟨?_, ?_, ?_, ?_⟩ <;> decide

/-- C7 (failing input): the source's Bid match arm spells the tag
`collection:Bid` with a single colon, so the fully-qualified
`::collection::Bid` tag of the Bid kind is never recognized: a well-formed
Bid value at that tag yields `Ok(None)`, while the Offer and Order kinds'
fully-qualified tags do produce their variants. -/
theorem bid_tag_not_recognized :
    MarketplaceWriteSet.from_table_item_type
        "0x4bed2725cbd33afc34c556a86910456e28537ffb84df6537401c966dbaccf63b::collection::Bid"
        (.obj [("maker", .str "0xCC"), ("price", .num 10)]) 7
      = .ok none ∧
    decodeBidType (.obj [("maker", .str "0xCC"), ("price", .num 10)])
      = some ⟨10, "0xCC"⟩ ∧
    MarketplaceWriteSet.from_table_item_type offerTypeTag
        (.obj [("price", .num 500), ("seller", .str "0xBB")]) 7
      = .ok (some (.Offer ⟨500, "0xBB"⟩)) ∧
    MarketplaceWriteSet.from_table_item_type orderTypeTag
        (.obj [("price", .num 500), ("quantity", .num 2)]) 7
      = .ok (some (.Order ⟨500, 2⟩)) := by
  exact ⟨rfl, by decide, rfl, rfl⟩

/-- C8: start-version resolution: a configured `starting_version` override
wins regardless of the cursor; otherwise the persisted cursor minus the
lookback is used (here within `u64` range); with no cursor row the start is
version 0. -/
theorem resolve_start_version_spec :
    (∀ (v : Nat) (cursor : Option Int) (lookback : Int),
      resolve_start_version (some v) cursor lookback = v) ∧
    (∀ c lookback : Int, lookback ≤ c → c - lookback < 2 ^ 64 →
      resolve_start_version none (some c) lookback = (c - lookback).toNat) ∧
    (∀ lookback : Int, resolve_start_version none none lookback = 0) := by
  refine ⟨fun v cursor lookback => rfl, ?_, fun lookback => rfl⟩
  intro c lookback h1 h2
  have h0 : (0 : Int) ≤ c - lookback := by omega
  show ((c - lookback) % 2 ^ 64).toNat = (c - lookback).toNat
  rw [Int.emod_eq_of_lt h0 (by omega)]

/-- Witness for C8 at concrete inputs: override 7 wins over cursor 100;
without an override, cursor 100 with lookback 10 starts at 90. -/
theorem resolve_start_version_spec_witness :
    resolve_start_version (some 7) (some 100) 10 = 7 ∧
    resolve_start_version none (some 100) 10 = 90 := by
  constructor
  · exact resolve_start_version_spec.1 7 (some 100) 10
  · exact resolve_start_version_spec.2.1 100 10 (by decide) (by decide)

/-- C4: `insert_to_db` attempts the whole batch in one transaction; if and
only if that first transaction fails it runs exactly one further
transaction over the records sanitized by `clean_data_for_db`, and the
call's result is that retry's result — so the call errs exactly when the
sanitized retry errs. -/
theorem insert_to_db_retry_spec :
    (∀ (runTxn : MarketplaceRecords → Except DbError Unit) (recs : MarketplaceRecords),
      runTxn recs = .ok () → insert_to_db runTxn recs = .ok ()) ∧
    (∀ (runTxn : MarketplaceRecords → Except DbError Unit) (recs : MarketplaceRecords)
        (e : DbError),
      runTxn recs = .error e →
      insert_to_db runTxn recs = runTxn (cleanRecords recs)) ∧
    (∀ (runTxn : MarketplaceRecords → Except DbError Unit) (recs : MarketplaceRecords),
      insert_to_db runTxn recs = .ok () ↔
        (runTxn recs = .ok () ∨ runTxn (cleanRecords recs) = .ok ())) ∧
    (∀ (runTxn : MarketplaceRecords → Except DbError Unit) (recs : MarketplaceRecords)
        (e : DbError),
      insert_to_db runTxn recs = .error e →
      runTxn (cleanRecords recs) = .error e ∧ ∃ e0, runTxn recs = .error e0) := by
  refine ⟨?_, ?_, ?_, ?_⟩
  · intro runTxn recs h
    simp [insert_to_db, h]
  · intro runTxn recs e h
    simp [insert_to_db, h]
  · intro runTxn recs
    cases h : runTxn recs with
    | ok u => cases u; simp [insert_to_db, h]
    | error e =>
      simp only [insert_to_db, h]
      cases h2 : runTxn (cleanRecords recs) with
      | ok u => cases u; simp [h2]
      | error e2 => simp [h, h2]
  · intro runTxn recs e h
    rw [insert_to_db] at h
    cases h1 : runTxn recs with
    | ok u => cases u; rw [h1] at h; exact absurd h (by simp)
    | error e0 => rw [h1] at h; exact ⟨h, e0, rfl⟩

/-- Witness for C4 at concrete inputs: a transaction runner that always
succeeds makes `insert_to_db` succeed on the empty batch. -/
theorem insert_to_db_retry_spec_witness :
    insert_to_db (fun _ => .ok ()) ⟨[], [], [], []⟩ = .ok () :=
  insert_to_db_retry_spec.1 (fun _ => .ok ()) ⟨[], [], [], []⟩ rfl

/-- C5: one iteration of the reporting loop on an error result logs the
processor name and the batch's version range and dies by `panic!`; it
never continues past an error result, while an ok result always
continues. -/
theorem reporting_step_fatal_on_error :
    (∀ (name : String) (emit_every now : Nat) (st : LoopState) (num_res : Nat)
        (tpe : TxnProcessingError),
      reporting_step name emit_every now st num_res (.error tpe)
        = .fatal ⟨name, tpe.start_version, tpe.end_version, tpe.err⟩) ∧
    (∀ (name : String) (emit_every now : Nat) (st : LoopState) (num_res : Nat)
        (tpe : TxnProcessingError) (st2 : LoopState) (emitted : Option BatchLog),
      reporting_step name emit_every now st num_res (.error tpe)
        ≠ .continued st2 emitted) ∧
    (∀ (name : String) (emit_every now : Nat) (st : LoopState) (num_res : Nat)
        (res : ProcessingResult),
      ∃ (st2 : LoopState) (emitted : Option BatchLog),
        reporting_step name emit_every now st num_res (.ok res)
          = .continued st2 emitted) := by
  refine ⟨fun name emit_every now st num_res tpe => rfl, ?_, ?_⟩
  · intro name emit_every now st num_res tpe st2 emitted
    simp [reporting_step]
  · intro name emit_every now st num_res res
    by_cases h : emit_every ≠ 0
    · by_cases h2 : st.base ≠ (st.versions_processed + num_res) / emit_every
      · exact ⟨_, _, by simp only [reporting_step]; rw [if_pos h, if_pos h2]⟩
      · exact ⟨_, _, by simp only [reporting_step]; rw [if_pos h, if_neg h2]⟩
    · exact ⟨_, _, by simp only [reporting_step]; rw [if_neg h]⟩

/-- C10: `from_function_name` with a registered function name and an empty
argument vector panics (`merge_values_vector` unwraps element 0), rather
than returning `Ok(None)` or an error; an unregistered name with empty
arguments still returns `Ok(None)`, and the merge is panic-free exactly on
non-empty argument lists. -/
theorem from_function_name_empty_args_panics :
    (∀ ver : Int,
      MarketplacePayload.from_function_name listItemFunctionName [] ver = none) ∧
    (∀ ver : Int,
      MarketplacePayload.from_function_name placeBlindOrderFunctionName [] ver = none) ∧
    (∀ ver : Int,
      MarketplacePayload.from_function_name placeBiddingFunctionName [] ver = none) ∧
    (∀ (f : String) (ver : Int),
      f ≠ listItemFunctionName → f ≠ placeBlindOrderFunctionName →
      f ≠ placeBiddingFunctionName →
      MarketplacePayload.from_function_name f [] ver = some (.ok none)) ∧
    merge_values_vector [] = none ∧
    (∀ (v : JValue) (rest : List JValue), (merge_values_vector (v :: rest)).isSome) := by
  refine ⟨fun ver => rfl, fun ver => ?_, fun ver => ?_, ?_, rfl,
    fun v rest => rfl⟩
  · simp [MarketplacePayload.from_function_name, merge_values_vector,
      show placeBlindOrderFunctionName ≠ listItemFunctionName by decide]
  · simp [MarketplacePayload.from_function_name, merge_values_vector,
      show placeBiddingFunctionName ≠ listItemFunctionName by decide,
      show placeBiddingFunctionName ≠ placeBlindOrderFunctionName by decide]
  · intro f ver h1 h2 h3
    simp [MarketplacePayload.from_function_name, h1, h2, h3]

/-- Witness for C10 at a concrete input: an unregistered function name
with empty arguments is a plain miss. -/
theorem from_function_name_empty_args_panics_witness :
    MarketplacePayload.from_function_name "0x1::other::fn" [] 3 = some (.ok none) :=
  from_function_name_empty_args_panics.2.2.2.1 "0x1::other::fn" 3
    (by decide) (by decide) (by decide)

/-- C9: `tick(t, v)` appends the sample, adds `v` to the running sum and
evicts front samples older than the window (`t - ts > W`), keeping the sum
equal to the sum of the remaining samples; `avg()` divides the sum by the
elapsed time between the oldest remaining and the newest timestamp; the
`(0,5), (5000,5), (12000,5)` scenario under a 10000 ms window evicts the
`t = 0` sample at the third tick, leaving sum 10 over 7000 ms. -/
theorem moving_average_spec :
    (∀ (m : MovingAverage) (t v : Nat),
      m.sum = sumValues m.values →
      (m.tick t v).values
          = (m.values ++ [(t, v)]).dropWhile (fun p => decide (t - p.1 > m.window_millis))
        ∧ (m.tick t v).sum = sumValues (m.tick t v).values
        ∧ (m.tick t v).window_millis = m.window_millis) ∧
    (∀ m : MovingAverage, 2 ≤ m.values.length →
      m.avg = (m.sum : ℚ) /
        (((((m.values.getLast?).map Prod.fst).getD 0
          - (((m.values.head?).map Prod.fst).getD 0) : Nat)) : ℚ)) ∧
    ((((MovingAverage.new 10000).tick 0 5).tick 5000 5).tick 12000 5).values
      = [(5000, 5), (12000, 5)] ∧
    ((((MovingAverage.new 10000).tick 0 5).tick 5000 5).tick 12000 5).sum = 10 ∧
    ((((MovingAverage.new 10000).tick 0 5).tick 5000 5).tick 12000 5).avg
      = 10 / 7000 := by
  refine ⟨?_, ?_, by decide, by decide, ?_⟩
  · intro m t v hs
    refine ⟨evictFront_values t m.window_millis _ _, ?_, rfl⟩
    exact evictFront_sum t m.window_millis _ _ (by simp [sumValues, hs])
  · intro m h
    rw [MovingAverage.avg, if_neg (by omega)]
  · show MovingAverage.avg ⟨10000, [(5000, 5), (12000, 5)], 10⟩ = 10 / 7000
    rw [MovingAverage.avg]
    norm_num

/-- Witness for C9 at concrete inputs: ticking `(12000, 5)` into the state
holding the single sample `(0, 5)` keeps the sum equal to the remaining
samples' values, and the two-sample state of the scenario averages
`10 / 7000`. -/
theorem moving_average_spec_witness :
    ((⟨10000, [(0, 5)], 5⟩ : MovingAverage).tick 12000 5).sum
        = sumValues ((⟨10000, [(0, 5)], 5⟩ : MovingAverage).tick 12000 5).values ∧
    (⟨10000, [(0, 5), (7000, 5)], 10⟩ : MovingAverage).avg = 10 / 7000 := by
  constructor
  · exact (moving_average_spec.1 ⟨10000, [(0, 5)], 5⟩ 12000 5 (by decide)).2.1
  · have h := moving_average_spec.2.1 ⟨10000, [(0, 5), (7000, 5)], 10⟩ (by decide)
    simpa using h

/-- C3: `MarketplaceOffer::from_table_item` joins the two halves: with the
table item's decoded data present, a successfully dispatched write-set
half `w` and payload half `q` yield a record exactly when `w` is an
`Offer` and `q` a `ListItemPayload` — the record taking creator address,
collection name, token name and property version from the payload half,
price and seller from the write-set half, and the transaction timestamp —
and `Ok(None)`, not an error, when either half is absent; the version-100
scenario produces exactly the claimed record. -/
theorem offer_from_table_item_spec :
    (∀ (d : TableItemData) (payload : EntryFunctionPayload) (ver ts : Int)
        (w : Option MarketplaceWriteSet) (q : Option MarketplacePayload),
      MarketplaceWriteSet.from_table_item_type d.key_type d.value ver = .ok w →
      MarketplacePayload.from_function_name payload.function payload.arguments ver
        = some (.ok q) →
      MarketplaceOffer.from_table_item ⟨some d⟩ payload ver ts
        = some (.ok (match w, q with
          | some (.Offer offer), some (.ListItemPayload lip) =>
            some ⟨lip.creator, lip.collection_name, lip.token_name,
              lip.property_version, offer.price, offer.seller, ts⟩
          | _, _ => none))) ∧
    MarketplaceOffer.from_table_item
        ⟨some ⟨offerTypeTag, .str "0xkey", "",
          .obj [("price", .num 500), ("seller", .str "0xBB")]⟩⟩
        ⟨listItemFunctionName,
          [.obj [("collection_name", .str "C1"), ("creator", .str "0xAA")],
           .obj [("price", .num 500), ("property_version", .num 0),
             ("token_name", .str "T1")]]⟩
        100 1234
      = some (.ok (some ⟨"0xAA", "C1", "T1", 0, 500, "0xBB", 1234⟩)) := by
  refine ⟨from_table_item_join, ?_⟩
  have hmerge : merge_values_vector
      [.obj [("collection_name", .str "C1"), ("creator", .str "0xAA")],
       .obj [("price", .num 500), ("property_version", .num 0),
         ("token_name", .str "T1")]]
      = some (.obj [("collection_name", .str "C1"), ("creator", .str "0xAA"),
          ("price", .num 500), ("property_version", .num 0),
          ("token_name", .str "T1")]) := by
    simp only [merge_values_vector, List.foldl]
    rw [mergeTwoValues_obj_obj]
    simp +decide [mergeInto, entryMerge, getField, replaceKey, sortedInsert,
      List.find?, mergeTwoValues]
  have hp : MarketplacePayload.from_function_name listItemFunctionName
      [.obj [("collection_name", .str "C1"), ("creator", .str "0xAA")],
       .obj [("price", .num 500), ("property_version", .num 0),
         ("token_name", .str "T1")]] 100
      = some (.ok (some (.ListItemPayload ⟨"0xAA", "C1", "T1", 0, 500⟩))) := by
    simp only [MarketplacePayload.from_function_name, if_pos rfl, hmerge]
    rfl
  have hw : MarketplaceWriteSet.from_table_item_type offerTypeTag
      (.obj [("price", .num 500), ("seller", .str "0xBB")]) 100
      = .ok (some (.Offer ⟨500, "0xBB"⟩)) := rfl
  exact from_table_item_join
    ⟨offerTypeTag, .str "0xkey", "", .obj [("price", .num 500), ("seller", .str "0xBB")]⟩
    ⟨listItemFunctionName,
      [.obj [("collection_name", .str "C1"), ("creator", .str "0xAA")],
       .obj [("price", .num 500), ("property_version", .num 0),
         ("token_name", .str "T1")]]⟩
    100 1234 (some (.Offer ⟨500, "0xBB"⟩))
    (some (.ListItemPayload ⟨"0xAA", "C1", "T1", 0, 500⟩)) hw hp

/-- Witness for C3 at concrete inputs: an unregistered tag and function
name give two absent halves, hence `Ok(None)`. -/
theorem offer_from_table_item_spec_witness :
    MarketplaceOffer.from_table_item ⟨some ⟨"t", .null, "", .null⟩⟩ ⟨"f", []⟩ 1 2
      = some (.ok none) :=
  offer_from_table_item_spec.1 ⟨"t", .null, "", .null⟩ ⟨"f", []⟩ 1 2 none none rfl rfl

end MarketplaceIndexer
